import Mathlib

set_option maxHeartbeats 1000000

namespace AnaplanLookup

/-- JSON values as decoded by Python's `response.json()` (`json` module):
objects keep their key order as an association list (CPython dicts are
insertion-ordered).  Numbers are modelled as integers since no claim
computes with numeric values; they only matter as non-sequence scalars. -/
inductive Json where
  | null
  | bool (b : Bool)
  | num (n : Int)
  | str (s : String)
  | list (items : List Json)
  | obj (fields : List (String × Json))

/-- `isinstance(value, list)` on a decoded JSON value. -/
def Json.isList : Json → Bool
  | .list _ => true
  | _ => false

/-- `isinstance(value, dict)` on a decoded JSON value. -/
def Json.isObj : Json → Bool
  | .obj _ => true
  | _ => false

/-- The items of a JSON sequence (empty for non-sequences). -/
def Json.getList : Json → List Json
  | .list xs => xs
  | _ => []

/-- The `for key, value in data.items(): if isinstance(value, list): return value`
loop of `fetch_items` (src/app.py lines 71-74): first list-valued entry wins,
`[]` if none. -/
def firstListValue : List (String × Json) → List Json
  | [] => []
  | (_, v) :: rest =>
    match v with
    | .list xs => xs
    | _ => firstListValue rest

/-- The shape-normalization tail of `fetch_items` (src/app.py lines 70-78):
dict → first list-valued entry, list → unchanged, anything else → `[]`. -/
def normalize (data : Json) : List Json :=
  match data with
  | .obj fields => firstListValue fields
  | .list xs => xs
  | _ => []

/-- Written from the spec's words (§4.3 normalization contract): if the body
is a mapping, the value of the first entry whose value is a sequence, else the
empty sequence; a sequence body unchanged; any other shape the empty sequence.
Kept separate from `normalize` so the two can be compared. -/
def normalizeSpec (data : Json) : List Json :=
  match data with
  | .obj fields =>
    match fields.find? (fun p => p.2.isList) with
    | some p => p.2.getList
    | none => []
  | .list xs => xs
  | _ => []

/-- A decoded body that contains a sequence at the places `fetch_items` looks:
either it is itself a sequence, or it is a mapping one of whose top-level
values is a sequence. -/
def hasTopLevelSeq (data : Json) : Bool :=
  match data with
  | .list _ => true
  | .obj fields => fields.any (fun p => p.2.isList)
  | _ => false

/-- The constant `CREDENTIAL_EXPIRY_SECONDS` (src/app.py line 19). -/
def CREDENTIAL_EXPIRY_SECONDS : ℚ := 600

/-- The constant `BASE_URL` (src/app.py line 18). -/
def BASE_URL : String := "https://api.anaplan.com/1/3"

/-- The dict stored under `st.session_state["credentials"]` by
`save_credentials` (src/app.py lines 34-38).  `time.time()` values are
modelled as rationals. -/
structure Credentials where
  email : String
  password : String
  timestamp : ℚ

/-- `save_credentials` (src/app.py lines 33-38): the state transition on the
`credentials` slot of the session state, with `now` the value of
`time.time()` at the call.  The prior slot content is a parameter to make
explicit that it is overwritten whatever it was. -/
def save_credentials (email password : String) (now : ℚ)
    (_prior : Option Credentials) : Option Credentials :=
  some ⟨email, password, now⟩

/-- `get_credentials` (src/app.py lines 41-45): reads the `credentials` slot
at time `now`; `none` models the Python return value `(None, None)`.  A
stored dict is always truthy in Python (it has three keys), so the `creds and`
guard is exactly the `Option` match. -/
def get_credentials (slot : Option Credentials) (now : ℚ) :
    Option (String × String) :=
  match slot with
  | some creds =>
    if now - creds.timestamp < CREDENTIAL_EXPIRY_SECONDS then
      some (creds.email, creds.password)
    else
      none
  | none => none

/-- Byte sequence of the UTF-8 encoding of one Unicode scalar value, as
produced by Python's `str.encode("utf-8")`. -/
def utf8Char (c : Char) : List Nat :=
  let n := c.toNat
  if n < 0x80 then [n]
  else if n < 0x800 then [0xC0 + n / 64, 0x80 + n % 64]
  else if n < 0x10000 then
    [0xE0 + n / 4096, 0x80 + n / 64 % 64, 0x80 + n % 64]
  else
    [0xF0 + n / 262144, 0x80 + n / 4096 % 64, 0x80 + n / 64 % 64, 0x80 + n % 64]

/-- UTF-8 bytes of a character list. -/
def utf8Bytes : List Char → List Nat
  | [] => []
  | c :: cs => utf8Char c ++ utf8Bytes cs

/-- UTF-8 bytes of a string (`s.encode("utf-8")`). -/
def utf8Str (s : String) : List Nat :=
  utf8Bytes s.data

/-- The RFC 4648 base64 alphabet used by Python's `base64.b64encode`. -/
def b64Chars : List Char :=
  ['A', 'B', 'C', 'D', 'E', 'F', 'G', 'H', 'I', 'J', 'K', 'L', 'M',
   'N', 'O', 'P', 'Q', 'R', 'S', 'T', 'U', 'V', 'W', 'X', 'Y', 'Z',
   'a', 'b', 'c', 'd', 'e', 'f', 'g', 'h', 'i', 'j', 'k', 'l', 'm',
   'n', 'o', 'p', 'q', 'r', 's', 't', 'u', 'v', 'w', 'x', 'y', 'z',
   '0', '1', '2', '3', '4', '5', '6', '7', '8', '9', '+', '/']

/-- Digit character for a 6-bit value. -/
def b64Digit (n : Nat) : Char := b64Chars.getD n 'A'

/-- Inverse of `b64Digit`: position of a character in the base64 alphabet. -/
def b64Val (c : Char) : Option Nat := b64Chars.indexOf? c

/-- Modelled from the spec and RFC 4648: Python's `base64.b64encode` on a
byte sequence (the standard library routine called at src/app.py line 28 is
not part of this repository's sources).  Three input bytes become four
alphabet characters; a 1- or 2-byte tail is padded with `=`. -/
def b64Encode : List Nat → List Char
  | [] => []
  | [a] => [b64Digit (a / 4), b64Digit (a % 4 * 16), '=', '=']
  | [a, b] =>
    [b64Digit (a / 4), b64Digit (a % 4 * 16 + b / 16), b64Digit (b % 16 * 4), '=']
  | a :: b :: c :: rest =>
    b64Digit (a / 4) :: b64Digit (a % 4 * 16 + b / 16) ::
      b64Digit (b % 16 * 4 + c / 64) :: b64Digit (c % 64) :: b64Encode rest

/-- Standard base64 decoding, used to state that the encoding applied by
`get_basic_auth_header` is reversible. -/
def b64Decode (cs : List Char) : Option (List Nat) :=
  match cs with
  | [] => some []
  | c1 :: c2 :: c3 :: c4 :: rest =>
    match b64Val c1, b64Val c2 with
    | some d1, some d2 =>
      if c3 = '=' then
        if c4 = '=' ∧ rest = [] then some [d1 * 4 + d2 / 16] else none
      else
        match b64Val c3 with
        | some d3 =>
          if c4 = '=' then
            if rest = [] then some [d1 * 4 + d2 / 16, d2 % 16 * 16 + d3 / 4]
            else none
          else
            match b64Val c4, b64Decode rest with
            | some d4, some more =>
              some ((d1 * 4 + d2 / 16) :: (d2 % 16 * 16 + d3 / 4) ::
                (d3 % 4 * 64 + d4) :: more)
            | _, _ => none
        | none => none
    | _, _ => none
  | _ => none

/-- `get_basic_auth_header` (src/app.py lines 23-29):
`"Basic " + base64(utf8(username + ":" + password))`. -/
def get_basic_auth_header (username password : String) : String :=
  "Basic " ++ String.mk (b64Encode (utf8Str (username ++ ":" ++ password)))

/-- What the transport returns for one GET: the HTTP status code, and the
JSON decoding of the body (`none` when `response.json()` would raise). -/
structure HttpResponse where
  status : Nat
  body : Option Json

/-- Errors `fetch_items` can raise: `requests.HTTPError` from
`raise_for_status` (carrying the status), or a JSON decode error. -/
inductive FetchError where
  | http (status : Nat)
  | decode

/-- The URL built at src/app.py line 64:
`f"{BASE_URL}/workspaces/{workspace_id}/models/{model_id}/{item_type}"`. -/
def build_url (workspace_id model_id item_type : String) : String :=
  BASE_URL ++ "/workspaces/" ++ workspace_id ++ "/models/" ++ model_id ++
    "/" ++ item_type

/-- `response.raise_for_status()` (src/app.py line 67): `requests` raises
`HTTPError` exactly for status codes in `[400, 600)`. -/
def raise_for_status (r : HttpResponse) : Except FetchError Unit :=
  if 400 ≤ r.status ∧ r.status < 600 then .error (.http r.status) else .ok ()

/-- `fetch_items` (src/app.py lines 63-78).  The transport
(`requests.get` with the auth header, TLS verification off) is an external
collaborator, abstracted as `http : url → auth_header → response`.  After a
successful status check and JSON decode, the body is normalized by
`normalize` (lines 70-78). -/
def fetch_items (http : String → String → HttpResponse)
    (auth_header workspace_id model_id item_type : String) :
    Except FetchError (List Json) := do
  let r := http (build_url workspace_id model_id item_type) auth_header
  raise_for_status r
  match r.body with
  | none => .error .decode
  | some data => .ok (normalize data)

/-- `get_all_action_types` (src/app.py lines 81-87): one dict literal whose
four values are the four fetches; CPython evaluates them left to right and
an exception in any of them propagates before the dict exists, so the result
is the ordered association list only when all four succeed. -/
def get_all_action_types (http : String → String → HttpResponse)
    (auth_header workspace_id model_id : String) :
    Except FetchError (List (String × List Json)) := do
  let p ← fetch_items http auth_header workspace_id model_id "processes"
  let i ← fetch_items http auth_header workspace_id model_id "imports"
  let e ← fetch_items http auth_header workspace_id model_id "exports"
  let a ← fetch_items http auth_header workspace_id model_id "actions"
  .ok [("Processes", p), ("Imports", i), ("Exports", e), ("Other Actions", a)]

/-- The `st.session_state` slots the app uses (src/app.py lines 34, 95-102). -/
structure SessionState where
  credentials : Option Credentials
  auth_header : Option String
  action_data : Option (List (String × List Json))
  workspace_id : String
  model_id : String

/-- The `Fetch Actions` button handler in `main` (src/app.py lines 109-130):
with non-empty inputs it computes a fresh auth header, stores it together
with the two identifiers, runs `get_all_action_types`, and stores the result
in `action_data` only on success; the `except` clause at line 129 only
displays the error, so on failure the state keeps the assignments of lines
117-119 and the previous `action_data`.  Python's `not s` on a string is
`s = ""`. -/
def fetch_click (s : SessionState) (email password workspace_id model_id : String)
    (http : String → String → HttpResponse) : SessionState :=
  if email = "" ∨ password = "" then s
  else if workspace_id = "" ∨ model_id = "" then s
  else
    let auth_header := get_basic_auth_header email password
    let s1 : SessionState :=
      { s with auth_header := some auth_header,
               workspace_id := workspace_id, model_id := model_id }
    match get_all_action_types http auth_header workspace_id model_id with
    | .ok action_data => { s1 with action_data := some action_data }
    | .error _ => s1

/-- One row of the combined export set built in `main`: the `Name`/`ID`
cells (raw JSON values produced by `i.get(...)`) and the `Type` tag. -/
structure Row where
  name : Json
  id : Json
  type : String

/-- Lookup of a key in a decoded JSON object (Python dict indexing). -/
def lookupField (fields : List (String × Json)) (key : String) : Option Json :=
  (fields.find? (fun p => p.1 = key)).map Prod.snd

/-- Python's `i.get(key, "")` (src/app.py line 139): defined only when `i`
is a dict (on any other value `.get` raises `AttributeError`); a missing key
defaults to the empty string. -/
def pyGet (i : Json) (key : String) : Option Json :=
  match i with
  | .obj fields => some ((lookupField fields key).getD (.str ""))
  | _ => none

/-- The row built for one record at src/app.py line 139 plus the `Type` tag
added at line 144. -/
def rowOf (category : String) (i : Json) : Option Row := do
  let n ← pyGet i "name"
  let d ← pyGet i "id"
  some ⟨n, d, category⟩

/-- The `combined_data` accumulation of `main` (src/app.py lines 135-145):
iterate the stored `action_data` in its dict order, and for each category
append its rows (the `pandas` DataFrame / `to_dict(orient="records")` round
trip is the identity on the list of uniform-key row dicts).  The `if items:`
guard only affects the display; for the combined list it is equivalent since
an empty category contributes no rows. -/
def combine (action_data : List (String × List Json)) : Option (List Row) :=
  match action_data with
  | [] => some []
  | (category, items) :: rest => do
    let rows ← items.mapM (rowOf category)
    let more ← combine rest
    some (rows ++ more)

/-- The total row extraction for a record that is a JSON object: `name` and
`id` cells with the empty-string default, plus the category tag. -/
def objRow (category : String) (fields : List (String × Json)) : Row :=
  ⟨(lookupField fields "name").getD (.str ""),
   (lookupField fields "id").getD (.str ""), category⟩

/-- `objRow` lifted to arbitrary records (the non-object branch is
unreachable under the hypotheses it is used with). -/
def taggedRow (category : String) (i : Json) : Row :=
  match i with
  | .obj fields => objRow category fields
  | _ => ⟨.str "", .str "", category⟩

/-- The rows one category contributes to the combined export set. -/
def tagRows (category : String) (items : List Json) : List Row :=
  items.map (taggedRow category)

theorem firstListValue_eq_find (fields : List (String × Json)) :
    firstListValue fields =
      match fields.find? (fun p => p.2.isList) with
      | some p => p.2.getList
      | none => [] := by
  induction fields with
  | nil => rfl
  | cons kv rest ih =>
    obtain ⟨k, v⟩ := kv
    cases v <;> simp [firstListValue, List.find?, Json.isList, Json.getList, ih]

/-- C1: for every successfully decoded response body, the normalization in
`fetch_items` behaves as specified: a mapping yields the value of its first
sequence-valued entry (in the mapping's given order) or the empty sequence
when there is none, a sequence is returned unchanged, and any other shape
yields the empty sequence. -/
theorem c1_normalization_contract (data : Json) :
    normalize data = normalizeSpec data := by
  cases data <;> simp [normalize, normalizeSpec, firstListValue_eq_find]

/-- C7: the normalization step of `fetch_items` is total: whenever the
status check passes and the body decodes to some JSON value, `fetch_items`
returns `.ok` of the normalized body and never raises, whatever the body's
shape; and a body with no sequence at the inspected places degrades to the
empty sequence. -/
theorem c7_normalization_never_raises
    (http : String → String → HttpResponse)
    (auth_header workspace_id model_id item_type : String) (data : Json)
    (hstatus :
      ¬ (400 ≤ (http (build_url workspace_id model_id item_type) auth_header).status ∧
         (http (build_url workspace_id model_id item_type) auth_header).status < 600))
    (hbody :
      (http (build_url workspace_id model_id item_type) auth_header).body = some data) :
    fetch_items http auth_header workspace_id model_id item_type =
      .ok (normalize data) ∧
    (hasTopLevelSeq data = false → normalize data = []) := by
  constructor
  · simp only [fetch_items, raise_for_status, hstatus, if_false, hbody]
    rfl
  · intro hno
    cases data with
    | obj fields =>
      rw [normalize, firstListValue_eq_find]
      have : fields.find? (fun p => p.2.isList) = none := by
        rw [List.find?_eq_none]
        intro p hp
        simp only [hasTopLevelSeq, List.any_eq_false] at hno
        simp [hno p hp]
      simp [this]
    | list xs => simp [hasTopLevelSeq] at hno
    | null => rfl
    | bool b => rfl
    | num n => rfl
    | str s => rfl

/-- Witness for C7 at a concrete scalar body. -/
theorem c7_witness :
    fetch_items (fun _ _ => ⟨200, some (Json.num 42)⟩) "B" "W1" "M1" "processes" =
      .ok (normalize (Json.num 42)) ∧
    (hasTopLevelSeq (Json.num 42) = false → normalize (Json.num 42) = []) :=
  c7_normalization_never_raises (fun _ _ => ⟨200, some (Json.num 42)⟩)
    "B" "W1" "M1" "processes" (Json.num 42) (by decide) rfl

/-- C10: the first-sequence scan of `fetch_items` is shallow: a mapping none
of whose top-level values is a sequence normalizes to the empty sequence, so
in particular a sequence hidden inside a sub-mapping, as in
`{"meta": {"items": [...]}}`, is never found. -/
theorem c10_scan_is_shallow (fields : List (String × Json)) (xs : List Json)
    (h : ∀ p ∈ fields, p.2.isList = false) :
    normalize (.obj fields) = [] ∧
    normalize (.obj [("meta", .obj [("items", .list xs)])]) = [] := by
  refine ⟨?_, rfl⟩
  rw [normalize, firstListValue_eq_find]
  have : fields.find? (fun p => p.2.isList) = none := by
    rw [List.find?_eq_none]
    intro p hp
    simp [h p hp]
  simp [this]

/-- Witness for C10 at the nested-sequence example from the claim. -/
theorem c10_witness :
    normalize (.obj [("meta", .obj [("items", .list [Json.null])])]) = [] ∧
    normalize (.obj [("meta", .obj [("items", .list [Json.null])])]) = [] :=
  c10_scan_is_shallow [("meta", .obj [("items", .list [Json.null])])]
    [Json.null] (by decide)

/-- C2: a credential pair saved at time `T` is returned by `get_credentials`
at exactly those query times `T'` with `T' - T < 600`, and the absent value
(Python `(None, None)`) is returned whenever `T' - T ≥ 600`; the check is a
pure comparison of the two times evaluated on each call — `get_credentials`
is a function of the stored slot and the query time only, there is no
background expiry in the model because there is none in the code. -/
theorem c2_credential_expiry (email password : String) (T T' : ℚ)
    (prior : Option Credentials) :
    get_credentials (save_credentials email password T prior) T' =
      if T' - T < 600 then some (email, password) else none := by
  simp [get_credentials, save_credentials, CREDENTIAL_EXPIRY_SECONDS]

/-- C8: `save_credentials` overwrites the stored credential and resets its
timestamp to the current time unconditionally: the result is the same fresh
credential whatever the prior slot held (absent, still valid, or expired),
and saving never fails (it is a total function). -/
theorem c8_save_overwrites_unconditionally (email password : String) (now : ℚ)
    (prior : Option Credentials) :
    save_credentials email password now prior = some ⟨email, password, now⟩ ∧
    ∀ prior2 : Option Credentials,
      save_credentials email password now prior =
        save_credentials email password now prior2 :=
  ⟨rfl, fun _ => rfl⟩

/-- C5: whenever all four fetches succeed, `get_all_action_types` returns
the mapping with exactly the four category keys in the fixed insertion order
Processes, Imports, Exports, Other Actions, each bound to the (possibly
empty) sequence fetched via its fixed resource name `processes`, `imports`,
`exports`, `actions`; in particular every successful result has exactly
those keys in that order, so no key is ever missing. -/
theorem c5_four_fixed_categories (http : String → String → HttpResponse)
    (auth_header workspace_id model_id : String) (p i e a : List Json)
    (hp : fetch_items http auth_header workspace_id model_id "processes" = .ok p)
    (hi : fetch_items http auth_header workspace_id model_id "imports" = .ok i)
    (he : fetch_items http auth_header workspace_id model_id "exports" = .ok e)
    (ha : fetch_items http auth_header workspace_id model_id "actions" = .ok a) :
    get_all_action_types http auth_header workspace_id model_id =
      .ok [("Processes", p), ("Imports", i), ("Exports", e),
           ("Other Actions", a)] ∧
    ∀ coll, get_all_action_types http auth_header workspace_id model_id = .ok coll →
      coll.map Prod.fst = ["Processes", "Imports", "Exports", "Other Actions"] := by
  have hmain :
      get_all_action_types http auth_header workspace_id model_id =
        .ok [("Processes", p), ("Imports", i), ("Exports", e),
             ("Other Actions", a)] := by
    simp [get_all_action_types, hp, hi, he, ha, bind, Except.bind]
  refine ⟨hmain, fun coll hcoll => ?_⟩
  rw [hmain] at hcoll
  cases hcoll
  rfl

/-- Witness for C5 with a transport that returns an empty JSON list for
every resource. -/
theorem c5_witness :
    get_all_action_types (fun _ _ => ⟨200, some (Json.list [])⟩) "B" "W1" "M1" =
      .ok [("Processes", []), ("Imports", []), ("Exports", []),
           ("Other Actions", [])] ∧
    ∀ coll,
      get_all_action_types (fun _ _ => ⟨200, some (Json.list [])⟩) "B" "W1" "M1" =
        .ok coll →
      coll.map Prod.fst = ["Processes", "Imports", "Exports", "Other Actions"] :=
  c5_four_fixed_categories (fun _ _ => ⟨200, some (Json.list [])⟩)
    "B" "W1" "M1" [] [] [] [] rfl rfl rfl rfl

/-- C3: if any one of the four category fetches fails (in particular with a
`TransportError`, i.e. a non-success HTTP status), `get_all_action_types`
propagates an error instead of returning any collection — in the `Except`
model no partially populated collection can even be produced — and the
`Fetch Actions` handler leaves the previously stored
`session_state.action_data` unchanged. -/
theorem c3_failure_aborts_and_preserves_state
    (http : String → String → HttpResponse) (s : SessionState)
    (email password workspace_id model_id : String)
    (hemail : email ≠ "") (hpassword : password ≠ "")
    (hws : workspace_id ≠ "") (hmd : model_id ≠ "")
    (hfail :
      (fetch_items http (get_basic_auth_header email password)
          workspace_id model_id "processes").isOk = false ∨
      (fetch_items http (get_basic_auth_header email password)
          workspace_id model_id "imports").isOk = false ∨
      (fetch_items http (get_basic_auth_header email password)
          workspace_id model_id "exports").isOk = false ∨
      (fetch_items http (get_basic_auth_header email password)
          workspace_id model_id "actions").isOk = false) :
    (∃ err, get_all_action_types http (get_basic_auth_header email password)
        workspace_id model_id = .error err) ∧
    (fetch_click s email password workspace_id model_id http).action_data =
      s.action_data := by
  have herr : ∃ err, get_all_action_types http
      (get_basic_auth_header email password) workspace_id model_id =
        .error err := by
    rcases h1 : fetch_items http (get_basic_auth_header email password)
        workspace_id model_id "processes" with e1 | p
    · exact ⟨e1, by simp [get_all_action_types, h1, bind, Except.bind]⟩
    rcases h2 : fetch_items http (get_basic_auth_header email password)
        workspace_id model_id "imports" with e2 | i
    · exact ⟨e2, by simp [get_all_action_types, h1, h2, bind, Except.bind]⟩
    rcases h3 : fetch_items http (get_basic_auth_header email password)
        workspace_id model_id "exports" with e3 | e
    · exact ⟨e3, by simp [get_all_action_types, h1, h2, h3, bind, Except.bind]⟩
    rcases h4 : fetch_items http (get_basic_auth_header email password)
        workspace_id model_id "actions" with e4 | a
    · exact ⟨e4, by simp [get_all_action_types, h1, h2, h3, h4, bind, Except.bind]⟩
    rw [h1, h2, h3, h4] at hfail
    simp [Except.isOk, Except.toBool] at hfail
  refine ⟨herr, ?_⟩
  obtain ⟨err, herr'⟩ := herr
  rw [fetch_click, if_neg (by simp [hemail, hpassword]),
    if_neg (by simp [hws, hmd])]
  simp [herr']

/-- Witness for C3: a transport that answers 500 to everything, with a
previously stored collection in the session state. -/
theorem c3_witness :
    (∃ err, get_all_action_types (fun _ _ => ⟨500, none⟩)
        (get_basic_auth_header "a@b.com" "pw") "W1" "M1" = .error err) ∧
    (fetch_click ⟨none, none, some [("Processes", [Json.null])], "", ""⟩
        "a@b.com" "pw" "W1" "M1" (fun _ _ => ⟨500, none⟩)).action_data =
      some [("Processes", [Json.null])] :=
  c3_failure_aborts_and_preserves_state (fun _ _ => ⟨500, none⟩)
    ⟨none, none, some [("Processes", [Json.null])], "", ""⟩
    "a@b.com" "pw" "W1" "M1" (by decide) (by decide) (by decide) (by decide)
    (Or.inl rfl)

/-- C9 as stated is false on the code: after a fetch click the derived auth
token *is* stored in `session_state.auth_header` (src/app.py line 117),
separately from the credential, and it stays there even at a time when the
credential itself has expired and `get_credentials` answers absent. -/
theorem c9_counterexample :
    (fetch_click ⟨some ⟨"a@b.com", "pw", 0⟩, none, none, "", ""⟩
        "a@b.com" "pw" "W1" "M1" (fun _ _ => ⟨200, some (Json.list [])⟩)).auth_header =
      some (get_basic_auth_header "a@b.com" "pw") ∧
    get_credentials
      (fetch_click ⟨some ⟨"a@b.com", "pw", 0⟩, none, none, "", ""⟩
        "a@b.com" "pw" "W1" "M1"
        (fun _ _ => ⟨200, some (Json.list [])⟩)).credentials 600 = none := by
  refine ⟨rfl, ?_⟩
  have hc : (fetch_click ⟨some ⟨"a@b.com", "pw", 0⟩, none, none, "", ""⟩
      "a@b.com" "pw" "W1" "M1"
      (fun _ _ => ⟨200, some (Json.list [])⟩)).credentials =
      some ⟨"a@b.com", "pw", 0⟩ := rfl
  rw [hc]
  norm_num [get_credentials, CREDENTIAL_EXPIRY_SECONDS]

/-- C9 amended: the auth token used for fetching has no independent
lifetime — every fetch click recomputes it from the supplied email and
password and overwrites `session_state.auth_header` with the fresh value,
whatever was stored there before (the stored copy is written but never read
back by any operation). -/
theorem c9_token_recomputed_each_fetch (s : SessionState)
    (email password workspace_id model_id : String)
    (http : String → String → HttpResponse)
    (hemail : email ≠ "") (hpassword : password ≠ "")
    (hws : workspace_id ≠ "") (hmd : model_id ≠ "") :
    (fetch_click s email password workspace_id model_id http).auth_header =
      some (get_basic_auth_header email password) := by
  rw [fetch_click, if_neg (by simp [hemail, hpassword]),
    if_neg (by simp [hws, hmd])]
  cases hall : get_all_action_types http (get_basic_auth_header email password)
      workspace_id model_id <;> simp [hall]

/-- Witness for the amended C9 at concrete inputs, with a stale token in the
prior state that gets overwritten. -/
theorem c9_witness :
    (fetch_click ⟨none, some "Basic stale", none, "", ""⟩
        "a@b.com" "pw" "W1" "M1" (fun _ _ => ⟨200, some (Json.list [])⟩)).auth_header =
      some (get_basic_auth_header "a@b.com" "pw") :=
  c9_token_recomputed_each_fetch ⟨none, some "Basic stale", none, "", ""⟩
    "a@b.com" "pw" "W1" "M1" (fun _ _ => ⟨200, some (Json.list [])⟩)
    (by decide) (by decide) (by decide) (by decide)

theorem mapM_rowOf_of_objs (category : String) (items : List Json)
    (h : ∀ j ∈ items, j.isObj = true) :
    items.mapM (rowOf category) = some (tagRows category items) := by
  induction items with
  | nil => rfl
  | cons j rest ih =>
    have hj := h j (by simp)
    have ih' := ih (fun x hx => h x (by simp [hx]))
    cases j <;> simp [Json.isObj] at hj
    rw [List.mapM_cons, ih']
    simp [rowOf, pyGet, tagRows, taggedRow, objRow]

/-- C4: the combined-export accumulation of `main` walks the four categories
in the fixed order Processes, Imports, Exports, Other Actions, appends each
category's rows tagged with that category as `Type` and in the items' own
order, and a record missing its `name` or `id` field contributes the empty
string for that cell. -/
theorem c4_flatten_fixed_order_and_defaults (ps iss es os : List Json)
    (hp : ∀ j ∈ ps, j.isObj = true) (hi : ∀ j ∈ iss, j.isObj = true)
    (he : ∀ j ∈ es, j.isObj = true) (ho : ∀ j ∈ os, j.isObj = true) :
    combine [("Processes", ps), ("Imports", iss), ("Exports", es),
             ("Other Actions", os)] =
      some (tagRows "Processes" ps ++ tagRows "Imports" iss ++
            tagRows "Exports" es ++ tagRows "Other Actions" os) ∧
    (∀ category fields, lookupField fields "name" = none →
      (objRow category fields).name = .str "") ∧
    (∀ category fields, lookupField fields "id" = none →
      (objRow category fields).id = .str "") := by
  refine ⟨?_, ?_, ?_⟩
  · simp only [combine, mapM_rowOf_of_objs _ _ hp, mapM_rowOf_of_objs _ _ hi,
      mapM_rowOf_of_objs _ _ he, mapM_rowOf_of_objs _ _ ho,
      Option.bind_eq_bind, Option.some_bind, Option.some.injEq,
      List.append_assoc, List.append_nil]
  · intro category fields hnone
    simp [objRow, hnone]
  · intro category fields hnone
    simp [objRow, hnone]

/-- Witness for C4 at a small collection with a record whose `id` field is
missing. -/
theorem c4_witness :
    combine [("Processes", [Json.obj [("name", Json.str "P1"), ("id", Json.str "p1")]]),
             ("Imports", []),
             ("Exports", [Json.obj [("name", Json.str "E1")]]),
             ("Other Actions", [])] =
      some (tagRows "Processes" [Json.obj [("name", Json.str "P1"), ("id", Json.str "p1")]] ++
            tagRows "Imports" [] ++
            tagRows "Exports" [Json.obj [("name", Json.str "E1")]] ++
            tagRows "Other Actions" []) ∧
    (∀ category fields, lookupField fields "name" = none →
      (objRow category fields).name = .str "") ∧
    (∀ category fields, lookupField fields "id" = none →
      (objRow category fields).id = .str "") :=
  c4_flatten_fixed_order_and_defaults
    [Json.obj [("name", Json.str "P1"), ("id", Json.str "p1")]] []
    [Json.obj [("name", Json.str "E1")]] []
    (by decide) (by decide) (by decide) (by decide)

theorem b64Val_b64Digit : ∀ n < 64, b64Val (b64Digit n) = some n := by decide

theorem b64Digit_ne_pad : ∀ n < 64, ¬ b64Digit n = '=' := by decide

theorem b64_decode_encode :
    ∀ bs : List Nat, (∀ x ∈ bs, x < 256) → b64Decode (b64Encode bs) = some bs
  | [], _ => rfl
  | [a], h => by
    have ha : a < 256 := h a (by simp)
    have e1 := b64Val_b64Digit (a / 4) (by omega)
    have e2 := b64Val_b64Digit (a % 4 * 16) (by omega)
    (simp [b64Encode, b64Decode, e1, e2]; omega)
  | [a, b], h => by
    have ha : a < 256 := h a (by simp)
    have hb : b < 256 := h b (by simp)
    have e1 := b64Val_b64Digit (a / 4) (by omega)
    have e2 := b64Val_b64Digit (a % 4 * 16 + b / 16) (by omega)
    have e3 := b64Val_b64Digit (b % 16 * 4) (by omega)
    have ne3 := b64Digit_ne_pad (b % 16 * 4) (by omega)
    (simp [b64Encode, b64Decode, e1, e2, e3, ne3]; omega)
  | a :: b :: c :: rest, h => by
    have ha : a < 256 := h a (by simp)
    have hb : b < 256 := h b (by simp)
    have hc : c < 256 := h c (by simp)
    have ih := b64_decode_encode rest (fun x hx => h x (by simp [hx]))
    have e1 := b64Val_b64Digit (a / 4) (by omega)
    have e2 := b64Val_b64Digit (a % 4 * 16 + b / 16) (by omega)
    have e3 := b64Val_b64Digit (b % 16 * 4 + c / 64) (by omega)
    have e4 := b64Val_b64Digit (c % 64) (by omega)
    have ne3 := b64Digit_ne_pad (b % 16 * 4 + c / 64) (by omega)
    have ne4 := b64Digit_ne_pad (c % 64) (by omega)
    (simp [b64Encode, b64Decode, e1, e2, e3, e4, ne3, ne4, ih]; omega)

theorem utf8Char_lt (c : Char) : ∀ x ∈ utf8Char c, x < 256 := by
  have hv : c.toNat < 1114112 := by
    rcases c.valid with hlt | ⟨_, hlt⟩
    · exact Nat.lt_trans hlt (by norm_num)
    · exact hlt
  intro x hx
  simp only [utf8Char] at hx
  split at hx
  · simp at hx
    omega
  · split at hx
    · simp at hx
      rcases hx with rfl | rfl <;> omega
    · split at hx
      · simp at hx
        rcases hx with rfl | rfl | rfl <;> omega
      · simp at hx
        rcases hx with rfl | rfl | rfl | rfl <;> omega

theorem utf8Bytes_lt : ∀ l : List Char, ∀ x ∈ utf8Bytes l, x < 256
  | [] => by simp [utf8Bytes]
  | c :: cs => by
    intro x hx
    rw [utf8Bytes] at hx
    rcases List.mem_append.mp hx with hx | hx
    · exact utf8Char_lt c x hx
    · exact utf8Bytes_lt cs x hx

/-- C6: `get_basic_auth_header` is a pure (deterministic, stateless)
function whose result is the fixed scheme label `"Basic "` followed by a
reversible binary-to-text (base64) encoding of the identity and the secret
joined by the single separator character `:` — decoding the part after the
label recovers exactly the UTF-8 bytes of `username ++ ":" ++ password`. -/
theorem c6_auth_header_reversible_encoding (username password : String) :
    ∃ enc : String,
      get_basic_auth_header username password = "Basic " ++ enc ∧
      b64Decode enc.data = some (utf8Str (username ++ ":" ++ password)) := by
  refine ⟨String.mk (b64Encode (utf8Str (username ++ ":" ++ password))), rfl, ?_⟩
  exact b64_decode_encode _ (utf8Bytes_lt _)

end AnaplanLookup
